import Mathlib

/-!
Verification of the `line-counter` command-line utility (Rust, `src/main.rs`)
against its natural-language specification.

The program is embedded shallowly:

* `LineStats`, `LineStats.new`, `LineStats.empty_percentage` mirror the Rust
  struct and its methods; the `f64` percentage is modelled by exact rational
  arithmetic (`ℚ`), which is what the spec's "to within floating rounding"
  hedge refers to.
* `count_lines` mirrors the counting loop over `reader.lines()`; the stream of
  line results is modelled as a `List (Except IoErr String)` where an `error`
  element stands for a failing read.  The `anyhow` context wrap around a read
  failure ("读取第 N 行时发生错误") is modelled by `AppError.readLineContext`
  carrying the 1-based line number and the underlying cause.
* `rustLines` models how `BufRead::lines` turns raw file content into the
  sequence of line strings: segments are terminated by `'\n'`, a terminated
  segment has a single trailing `'\r'` stripped, and a final unterminated
  segment is still yielded (without `'\r'` stripping, as in the Rust standard
  library).
* `rustTrim` models `str::trim` (Unicode `White_Space` code points).
* `runMain` mirrors `main`: argument check, the three validators, opening the
  file, counting.  Filesystem interaction is abstracted into an `FS` record of
  the answers the OS would give; the order of the observable filesystem
  operations is recorded in an event trace.
-/

/-- An I/O error surfaced by the operating system, modelled by its message. -/
abbrev IoErr : Type := String

instance {ε α : Type} [DecidableEq ε] [DecidableEq α] : DecidableEq (Except ε α) := fun x y =>
  match x, y with
  | .ok a, .ok b => if h : a = b then .isTrue (by rw [h]) else .isFalse (by simp [h])
  | .error a, .error b => if h : a = b then .isTrue (by rw [h]) else .isFalse (by simp [h])
  | .ok _, .error _ => .isFalse (by simp)
  | .error _, .ok _ => .isFalse (by simp)

/-- `MAX_FILE_SIZE`: the size limit in bytes, `100 * 1024 * 1024` as in the
source (`const MAX_FILE_SIZE: u64 = 100 * 1024 * 1024`).  It is a plain
constant of the development, mirroring that the Rust limit is a compile-time
constant and not runtime-configurable. -/
def MAX_FILE_SIZE : Nat := 100 * 1024 * 1024

/-- The `LineCounterError` enum from the source, one constructor per variant,
each carrying the same data as in Rust. -/
inductive LineCounterError : Type where
  | invalidPath (path : String)
  | fileNotFound (path : String)
  | fileReadError (path : String)
  | isDirectory (path : String)
  | permissionDenied (path : String)
  | fileTooLarge (path : String) (size : Nat)
  | missingArgument
  | ioError (cause : IoErr)
  deriving DecidableEq

/-- An `anyhow::Error` as it can appear at the top level of this program:
either a `LineCounterError`, or an underlying I/O error wrapped with a
context message (`with_context`).  `metadataContext` models the wrap in
`validate_file_size` around a failing `fs::metadata`; `readLineContext`
models the wrap in `count_lines` around a failing line read, carrying the
1-based line number of the failing read. -/
inductive AppError : Type where
  | lineCounter (e : LineCounterError)
  | metadataContext (path : String) (cause : IoErr)
  | readLineContext (lineNumber : Nat) (cause : IoErr)
  deriving DecidableEq

/-- The `LineStats` struct from the source. -/
structure LineStats : Type where
  total_lines : Nat
  non_empty_lines : Nat
  empty_lines : Nat
  deriving DecidableEq

/-- `LineStats::new` — constructs the record from the three counters, with no
validation of any relation between them, exactly as in the source. -/
def LineStats.new (total_lines non_empty_lines empty_lines : Nat) : LineStats :=
  ⟨total_lines, non_empty_lines, empty_lines⟩

/-- `LineStats::empty_percentage` — `0.0` when `total_lines == 0`, otherwise
`(empty_lines as f64 / total_lines as f64) * 100.0`.  The `f64` arithmetic is
modelled exactly over `ℚ`. -/
def LineStats.empty_percentage (s : LineStats) : ℚ :=
  if s.total_lines = 0 then 0
  else ((s.empty_lines : ℚ) / (s.total_lines : ℚ)) * 100

/-- Rust's `char::is_whitespace`: membership of the Unicode `White_Space`
property (the code-point list of `White_Space` in the Unicode character
database). -/
def isRustWhitespace (c : Char) : Bool :=
  c.toNat = 0x20 || (0x9 ≤ c.toNat && c.toNat ≤ 0xD) || c.toNat = 0x85 ||
  c.toNat = 0xA0 || c.toNat = 0x1680 ||
  (0x2000 ≤ c.toNat && c.toNat ≤ 0x200A) ||
  c.toNat = 0x2028 || c.toNat = 0x2029 || c.toNat = 0x202F ||
  c.toNat = 0x205F || c.toNat = 0x3000

/-- `str::trim` on a line: drop leading and trailing `White_Space`
characters. -/
def rustTrim (s : String) : String :=
  ⟨((s.data.dropWhile isRustWhitespace).reverse.dropWhile isRustWhitespace).reverse⟩

/-- `line.trim().is_empty()` — the emptiness test the counting loop applies to
each line. -/
def lineIsEmpty (s : String) : Bool :=
  (rustTrim s).isEmpty

/-- The body of the counting loop for one successfully read line:
`total_lines += 1`, then `empty_lines += 1` if `line.trim().is_empty()` and
`non_empty_lines += 1` otherwise. -/
def countStep (s : LineStats) (line : String) : LineStats :=
  if lineIsEmpty line then
    ⟨s.total_lines + 1, s.non_empty_lines, s.empty_lines + 1⟩
  else
    ⟨s.total_lines + 1, s.non_empty_lines + 1, s.empty_lines⟩

/-- The counting loop of `count_lines`: `n` is the number of lines already
consumed (the `enumerate` index), `acc` the counters so far.  A failing read
makes the whole call return the context-wrapped error (`?` propagation);
the counters accumulated so far are discarded. -/
def countLinesAux : Nat → LineStats → List (Except IoErr String) → Except AppError LineStats
  | _, acc, [] => .ok acc
  | n, _, .error e :: _ => .error (.readLineContext (n + 1) e)
  | n, acc, .ok line :: rest => countLinesAux (n + 1) (countStep acc line) rest

/-- `count_lines` — one linear pass over the stream of line-read results,
returning aggregate `LineStats` or the first read error, context-wrapped. -/
def count_lines (reader : List (Except IoErr String)) : Except AppError LineStats :=
  countLinesAux 0 (LineStats.new 0 0 0) reader

/-- Strip one trailing `'\r'` from a `'\n'`-terminated segment, as
`BufRead::lines` does. -/
def stripCR (l : List Char) : List Char :=
  if l.getLast? = some '\r' then l.dropLast else l

/-- The reading loop of `BufRead::lines` over raw content: `acc` holds the
current segment's characters in reverse.  A `'\n'` ends a segment (the
terminator is excluded and a trailing `'\r'` stripped); at end of input a
non-empty unterminated segment is still yielded, while an empty buffer yields
nothing. -/
def rustLinesAux : List Char → List Char → List String
  | [], [] => []
  | [], acc => [⟨acc.reverse⟩]
  | c :: rest, acc =>
      if c = '\n' then ⟨stripCR acc.reverse⟩ :: rustLinesAux rest []
      else rustLinesAux rest (c :: acc)

/-- The sequence of line strings `BufReader::lines` yields for given file
content. -/
def rustLines (content : String) : List String :=
  rustLinesAux content.data []

/-- The ways `File::open` can fail, as distinguished by
`open_file_with_error_handling` via `io::ErrorKind`. -/
inductive OpenFailKind : Type where
  | notFound
  | permissionDenied
  | other
  deriving DecidableEq

/-- The filesystem as the program observes it: the answers the OS gives to
the path-existence query, the directory query, the metadata query, the open
call, and the successive line reads. -/
structure FS : Type where
  pathExists : Bool
  isDir : Bool
  metadata : Except IoErr Nat
  openResult : Except OpenFailKind Unit
  lines : List (Except IoErr String)

/-- Observable filesystem operations of one run, in the order `main`
performs them. -/
inductive Event : Type where
  | checkExists
  | checkIsDir
  | readMetadata
  | openFile
  deriving DecidableEq

/-- How a run ends: normally with statistics (`Ok(())` and exit code 0),
with an error (`Err`, printed by the runtime, exit code 1), or aborted by a
panic (indexing `args[0]` on an empty argument vector). -/
inductive RunOutcome : Type where
  | ok (stats : LineStats)
  | err (e : AppError)
  | aborted
  deriving DecidableEq

/-- The observable result of one run of `main`: the trace of filesystem
events, the lines printed to standard error, and the outcome. -/
structure MainResult : Type where
  trace : List Event
  stderrLines : List String
  outcome : RunOutcome

/-- `print_usage_help` — the three `eprintln!` lines: error notice, literal
usage line, example line. -/
def print_usage_help (program_name : String) : List String :=
  ["❌ 错误: 缺少文件路径参数",
   "📖 用法: " ++ program_name ++ " <文件路径>",
   "💡 示例: " ++ program_name ++ " example.txt"]

/-- `validate_file_exists` — fails with `FileNotFound` when the path does not
resolve to a filesystem entry. -/
def validate_file_exists (pathExists : Bool) (file_path_str : String) :
    Except AppError Unit :=
  if !pathExists then .error (.lineCounter (.fileNotFound file_path_str))
  else .ok ()

/-- `validate_not_directory` — fails with `IsDirectory` when the entry is a
directory. -/
def validate_not_directory (isDir : Bool) (file_path_str : String) :
    Except AppError Unit :=
  if isDir then .error (.lineCounter (.isDirectory file_path_str))
  else .ok ()

/-- `validate_file_size` — queries the metadata (its failure is wrapped with
context), then fails with `FileTooLarge { path, size }` when the byte length
strictly exceeds `MAX_FILE_SIZE`; on success returns the metadata (here: the
byte length). -/
def validate_file_size (metadata : Except IoErr Nat) (file_path_str : String) :
    Except AppError Nat :=
  match metadata with
  | .error e => .error (.metadataContext file_path_str e)
  | .ok size =>
      if size > MAX_FILE_SIZE then
        .error (.lineCounter (.fileTooLarge file_path_str size))
      else .ok size

/-- `open_file_with_error_handling` — maps the `io::ErrorKind` of a failing
`File::open` to the matching `LineCounterError` variant. -/
def open_file_with_error_handling (openResult : Except OpenFailKind Unit)
    (file_path_str : String) : Except AppError Unit :=
  match openResult with
  | .error .notFound => .error (.lineCounter (.fileNotFound file_path_str))
  | .error .permissionDenied => .error (.lineCounter (.permissionDenied file_path_str))
  | .error .other => .error (.lineCounter (.fileReadError file_path_str))
  | .ok () => .ok ()

/-- `main` — argument check (fewer than two elements in `args` prints the
usage help and returns `MissingArgument`; an empty `args` would make the
Rust `&args[0]` index panic before anything is printed), then the three
validators in order, then opening the file, then `count_lines`.  Each
filesystem operation appends its event to the trace at the moment `main`
performs it. -/
def runMain (args : List String) (fs : FS) : MainResult :=
  match args with
  | [] => ⟨[], [], .aborted⟩
  | [prog] => ⟨[], print_usage_help prog, .err (.lineCounter .missingArgument)⟩
  | _ :: file_path_str :: _ =>
      match validate_file_exists fs.pathExists file_path_str with
      | .error e => ⟨[.checkExists], [], .err e⟩
      | .ok () =>
      match validate_not_directory fs.isDir file_path_str with
      | .error e => ⟨[.checkExists, .checkIsDir], [], .err e⟩
      | .ok () =>
      match validate_file_size fs.metadata file_path_str with
      | .error e => ⟨[.checkExists, .checkIsDir, .readMetadata], [], .err e⟩
      | .ok _ =>
      match open_file_with_error_handling fs.openResult file_path_str with
      | .error e => ⟨[.checkExists, .checkIsDir, .readMetadata, .openFile], [], .err e⟩
      | .ok () =>
      match count_lines fs.lines with
      | .error e => ⟨[.checkExists, .checkIsDir, .readMetadata, .openFile], [], .err e⟩
      | .ok stats => ⟨[.checkExists, .checkIsDir, .readMetadata, .openFile], [], .ok stats⟩

/-- The process exit code: 0 on success, 1 when `main` returns `Err` (the
Rust runtime's behavior), 101 on a panic abort. -/
def exitCode (r : MainResult) : Nat :=
  match r.outcome with
  | .ok _ => 0
  | .err _ => 1
  | .aborted => 101

/-- File content made of the given segments, each followed by a `'\n'`
terminator (the "trailing terminator" form of the spec). -/
def joinTerminated : List String → String
  | [] => ""
  | s :: rest => s ++ "\n" ++ joinTerminated rest

/-- File content made of the given segments separated by `'\n'`, with no
terminator after the last segment (the "no trailing terminator" form of the
spec). -/
def joinUnterminated : List String → String
  | [] => ""
  | [s] => s
  | s :: rest => s ++ "\n" ++ joinUnterminated rest

/-! ### Helper lemmas about the counting loop -/

theorem countLinesAux_map_ok (ls : List String) :
    ∀ (n : Nat) (acc : LineStats),
      countLinesAux n acc (ls.map Except.ok) =
        .ok ⟨acc.total_lines + ls.length,
             acc.non_empty_lines + ls.countP (fun l => !lineIsEmpty l),
             acc.empty_lines + ls.countP (fun l => lineIsEmpty l)⟩ := by
  induction ls with
  | nil => intro n acc; simp [countLinesAux]
  | cons l rest ih =>
      intro n acc
      simp only [List.map_cons, countLinesAux, ih]
      cases h : lineIsEmpty l <;>
        simp [countStep, h, List.countP_cons, Except.ok.injEq, LineStats.mk.injEq] <;>
        omega

theorem count_lines_map_ok (ls : List String) :
    count_lines (ls.map Except.ok) =
      .ok (LineStats.new ls.length
            (ls.countP (fun l => !lineIsEmpty l))
            (ls.countP (fun l => lineIsEmpty l))) := by
  unfold count_lines LineStats.new
  rw [countLinesAux_map_ok]
  simp

theorem countLinesAux_append_ok (ls : List String) :
    ∀ (n : Nat) (acc : LineStats) (rs : List (Except IoErr String)),
      countLinesAux n acc (ls.map Except.ok ++ rs) =
        countLinesAux (n + ls.length) (ls.foldl countStep acc) rs := by
  induction ls with
  | nil => intro n acc rs; simp
  | cons l rest ih =>
      intro n acc rs
      simp only [List.map_cons, List.cons_append, countLinesAux, List.append_eq, ih,
        List.foldl_cons, List.length_cons]
      rw [show n + (rest.length + 1) = n + 1 + rest.length from by omega]

theorem countLinesAux_ok_inv :
    ∀ (rs : List (Except IoErr String)) (n : Nat) (acc s : LineStats),
      countLinesAux n acc rs = .ok s →
      (acc.total_lines = acc.non_empty_lines + acc.empty_lines →
        s.total_lines = s.non_empty_lines + s.empty_lines) ∧
      (acc.empty_lines ≤ acc.total_lines → s.empty_lines ≤ s.total_lines) := by
  intro rs
  induction rs with
  | nil =>
      intro n acc s h
      simp only [countLinesAux, Except.ok.injEq] at h
      subst h
      exact ⟨id, id⟩
  | cons x rest ih =>
      intro n acc s h
      cases x with
      | error e => simp [countLinesAux] at h
      | ok line =>
          simp only [countLinesAux] at h
          refine ⟨fun hinv => (ih _ _ _ h).1 ?_, fun hle => (ih _ _ _ h).2 ?_⟩ <;>
            · unfold countStep
              split <;> simp <;> omega

theorem count_lines_ok_total_eq (rs : List (Except IoErr String)) (s : LineStats)
    (h : count_lines rs = .ok s) :
    s.total_lines = s.non_empty_lines + s.empty_lines :=
  (countLinesAux_ok_inv rs 0 (LineStats.new 0 0 0) s h).1 rfl

theorem count_lines_ok_empty_le (rs : List (Except IoErr String)) (s : LineStats)
    (h : count_lines rs = .ok s) :
    s.empty_lines ≤ s.total_lines :=
  (countLinesAux_ok_inv rs 0 (LineStats.new 0 0 0) s h).2 (Nat.le_refl 0)

/-! ### Helper lemmas about strings and line splitting -/

theorem string_eq_empty_iff (s : String) : s = "" ↔ s.data = [] := by
  constructor
  · intro h; rw [h]
  · intro h; exact String.ext h

theorem lineIsEmpty_iff_length (l : String) :
    lineIsEmpty l = true ↔ (rustTrim l).length = 0 := by
  unfold lineIsEmpty
  rw [String.isEmpty_iff (rustTrim l), string_eq_empty_iff]
  exact (List.length_eq_zero).symm

theorem rustLinesAux_append_newline :
    ∀ (l : List Char), '\n' ∉ l →
      ∀ (acc rest : List Char),
        rustLinesAux (l ++ '\n' :: rest) acc =
          ⟨stripCR (acc.reverse ++ l)⟩ :: rustLinesAux rest [] := by
  intro l
  induction l with
  | nil => intro _ acc rest; simp [rustLinesAux]
  | cons c l' ih =>
      intro h acc rest
      have hc : c ≠ '\n' := fun hc => h (by rw [hc]; exact List.mem_cons_self _ _)
      have h' : '\n' ∉ l' := fun hm => h (List.mem_cons_of_mem c hm)
      simp only [List.cons_append, rustLinesAux, if_neg hc, List.append_eq]
      rw [ih h' (c :: acc) rest]
      simp

theorem rustLinesAux_no_newline :
    ∀ (l : List Char), '\n' ∉ l →
      ∀ (acc : List Char),
        rustLinesAux l acc =
          if acc.reverse ++ l = [] then [] else [⟨acc.reverse ++ l⟩] := by
  intro l
  induction l with
  | nil =>
      intro _ acc
      cases acc with
      | nil => simp [rustLinesAux]
      | cons a as => simp [rustLinesAux]
  | cons c l' ih =>
      intro h acc
      have hc : c ≠ '\n' := fun hc => h (by rw [hc]; exact List.mem_cons_self _ _)
      have h' : '\n' ∉ l' := fun hm => h (List.mem_cons_of_mem c hm)
      simp only [rustLinesAux, if_neg hc]
      rw [ih h' (c :: acc)]
      have hne : (c :: acc).reverse ++ l' ≠ [] := by simp
      have hne2 : acc.reverse ++ c :: l' ≠ [] := by simp
      rw [if_neg hne, if_neg hne2]
      simp

theorem rustLines_joinTerminated :
    ∀ (segs : List String), (∀ s ∈ segs, '\n' ∉ s.data) →
      rustLines (joinTerminated segs) =
        segs.map (fun s => (⟨stripCR s.data⟩ : String)) := by
  intro segs
  induction segs with
  | nil => intro _; rfl
  | cons s rest ih =>
      intro h
      have hs : '\n' ∉ s.data := h s (List.mem_cons_self _ _)
      have hrest : ∀ t ∈ rest, '\n' ∉ t.data := fun t ht => h t (List.mem_cons_of_mem s ht)
      unfold rustLines joinTerminated
      rw [show (s ++ "\n" ++ joinTerminated rest).data
            = s.data ++ '\n' :: (joinTerminated rest).data by
          simp [String.data_append]]
      rw [rustLinesAux_append_newline s.data hs [] (joinTerminated rest).data]
      simp only [List.reverse_nil, List.nil_append, List.map_cons]
      exact congrArg _ (ih hrest)

theorem rustLines_joinUnterminated :
    ∀ (segs : List String), (∀ s ∈ segs, '\n' ∉ s.data) →
      segs.getLast? ≠ some "" →
      (rustLines (joinUnterminated segs)).length = segs.length := by
  intro segs
  induction segs with
  | nil => intro _ _; rfl
  | cons s rest ih =>
      intro h hlast
      cases rest with
      | nil =>
          have hs : '\n' ∉ s.data := h s (List.mem_cons_self _ _)
          have hne : s ≠ "" := by
            intro he; exact hlast (by rw [he]; rfl)
          have hdata : s.data ≠ [] := fun hd => hne ((string_eq_empty_iff s).mpr hd)
          unfold rustLines joinUnterminated
          rw [rustLinesAux_no_newline s.data hs []]
          simp [hdata]
      | cons r rest' =>
          have hs : '\n' ∉ s.data := h s (List.mem_cons_self _ _)
          have hrest : ∀ t ∈ r :: rest', '\n' ∉ t.data :=
            fun t ht => h t (List.mem_cons_of_mem s ht)
          have hlast' : (r :: rest').getLast? ≠ some "" := by
            rwa [List.getLast?_cons_cons] at hlast
          unfold rustLines joinUnterminated
          rw [show (s ++ "\n" ++ joinUnterminated (r :: rest')).data
                = s.data ++ '\n' :: (joinUnterminated (r :: rest')).data by
              simp [String.data_append]]
          rw [rustLinesAux_append_newline s.data hs [] (joinUnterminated (r :: rest')).data]
          simpa using ih hrest hlast'

/-! ### Helper lemma about the trace of a run -/

theorem runMain_trace (a b : String) (t : List String) (fs : FS) :
    (runMain (a :: b :: t) fs).trace =
      if fs.pathExists = false then [Event.checkExists]
      else if fs.isDir = true then [Event.checkExists, Event.checkIsDir]
      else
        match fs.metadata with
        | .error _ => [Event.checkExists, Event.checkIsDir, Event.readMetadata]
        | .ok size =>
            if MAX_FILE_SIZE < size then
              [Event.checkExists, Event.checkIsDir, Event.readMetadata]
            else
              [Event.checkExists, Event.checkIsDir, Event.readMetadata, Event.openFile] := by
  rcases fs with ⟨pe, isdir, md, opr, lns⟩
  cases pe with
  | false => simp [runMain, validate_file_exists]
  | true =>
      cases isdir with
      | true => simp [runMain, validate_file_exists, validate_not_directory]
      | false =>
          rcases md with e | size
          · simp [runMain, validate_file_exists, validate_not_directory, validate_file_size]
          · by_cases hs : MAX_FILE_SIZE < size
            · simp [runMain, validate_file_exists, validate_not_directory,
                validate_file_size, hs]
            · rcases opr with k | u
              · cases k <;>
                  simp [runMain, validate_file_exists, validate_not_directory,
                    validate_file_size, open_file_with_error_handling, hs]
              · cases u
                rcases hcl : count_lines lns with er | st <;>
                  simp [runMain, validate_file_exists, validate_not_directory,
                    validate_file_size, open_file_with_error_handling, hs, hcl]

/-! ### The claims -/

/-- C1: for every input stream on which `count_lines` returns statistics,
`total_lines = non_empty_lines + empty_lines`; on the empty stream it
returns with all three counters zero. -/
theorem c1_stats_invariant :
    (∀ (rs : List (Except IoErr String)) (s : LineStats),
        count_lines rs = .ok s →
        s.total_lines = s.non_empty_lines + s.empty_lines) ∧
    count_lines [] = .ok (LineStats.new 0 0 0) :=
  ⟨count_lines_ok_total_eq, rfl⟩

/-- Witness for C1 at a concrete three-line stream. -/
theorem c1_stats_invariant_witness :
    count_lines [Except.ok "a", Except.ok " ", Except.ok "b"] =
      .ok (LineStats.new 3 2 1) ∧
    (LineStats.new 3 2 1).total_lines =
      (LineStats.new 3 2 1).non_empty_lines + (LineStats.new 3 2 1).empty_lines :=
  ⟨by decide,
   c1_stats_invariant.1 [Except.ok "a", Except.ok " ", Except.ok "b"]
     (LineStats.new 3 2 1) (by decide)⟩

/-- C2: a line is classified empty exactly when stripping leading and
trailing whitespace leaves zero characters; over a stream of successfully
read lines the two counters are the counts of the two classes, and each
loop step raises `total_lines` by one and exactly one of the other two
counters by one. -/
theorem c2_classification :
    (∀ l : String, lineIsEmpty l = true ↔ (rustTrim l).length = 0) ∧
    (∀ ls : List String,
        count_lines (ls.map Except.ok) =
          .ok (LineStats.new ls.length
                (ls.countP (fun l => !lineIsEmpty l))
                (ls.countP (fun l => lineIsEmpty l)))) ∧
    (∀ (acc : LineStats) (l : String),
        (countStep acc l).total_lines = acc.total_lines + 1 ∧
        (lineIsEmpty l = true →
          (countStep acc l).empty_lines = acc.empty_lines + 1 ∧
          (countStep acc l).non_empty_lines = acc.non_empty_lines) ∧
        (lineIsEmpty l = false →
          (countStep acc l).non_empty_lines = acc.non_empty_lines + 1 ∧
          (countStep acc l).empty_lines = acc.empty_lines)) := by
  refine ⟨lineIsEmpty_iff_length, count_lines_map_ok, ?_⟩
  intro acc l
  unfold countStep
  cases h : lineIsEmpty l <;> simp [h]

/-- Witness for C2: a whitespace-only line (space, tab, space) is counted as
empty and only the empty counter moves. -/
theorem c2_classification_witness :
    (countStep (LineStats.new 3 2 1) " \t ").empty_lines =
      (LineStats.new 3 2 1).empty_lines + 1 ∧
    (countStep (LineStats.new 3 2 1) " \t ").non_empty_lines =
      (LineStats.new 3 2 1).non_empty_lines :=
  (c2_classification.2.2 (LineStats.new 3 2 1) " \t ").2.1 (by decide)

/-- C3: content made of `N` newline-delimited segments yields
`total_lines = N`, with a trailing terminator after the last segment or with
a final unterminated (nonempty) segment alike; the empty file yields zero
lines, and the spec's concrete scenarios evaluate as stated. -/
theorem c3_segment_count :
    (∀ segs : List String, (∀ s ∈ segs, '\n' ∉ s.data) →
        (∃ st, count_lines ((rustLines (joinTerminated segs)).map Except.ok) = .ok st ∧
            st.total_lines = segs.length) ∧
        (segs.getLast? ≠ some "" →
          ∃ st, count_lines ((rustLines (joinUnterminated segs)).map Except.ok) = .ok st ∧
            st.total_lines = segs.length)) ∧
    count_lines ((rustLines "").map Except.ok) = .ok (LineStats.new 0 0 0) ∧
    count_lines ((rustLines "a\nb\n\nd").map Except.ok) = .ok (LineStats.new 4 3 1) ∧
    count_lines ((rustLines "\n\n\n\n\n").map Except.ok) = .ok (LineStats.new 5 0 5) := by
  refine ⟨?_, by decide, by decide, by decide⟩
  intro segs h
  constructor
  · refine ⟨_, count_lines_map_ok _, ?_⟩
    simp only [LineStats.new]
    rw [rustLines_joinTerminated segs h]
    simp
  · intro hlast
    refine ⟨_, count_lines_map_ok _, ?_⟩
    simp only [LineStats.new]
    exact rustLines_joinUnterminated segs h hlast

/-- Witness for C3 with the two-segment content `a`, `b` in both forms. -/
theorem c3_segment_count_witness :
    (∃ st, count_lines ((rustLines (joinTerminated ["a", "b"])).map Except.ok) = .ok st ∧
        st.total_lines = ["a", "b"].length) ∧
    (∃ st, count_lines ((rustLines (joinUnterminated ["a", "b"])).map Except.ok) = .ok st ∧
        st.total_lines = ["a", "b"].length) :=
  ⟨(c3_segment_count.1 ["a", "b"] (by decide)).1,
   (c3_segment_count.1 ["a", "b"] (by decide)).2 (by decide)⟩

/-- C4: for statistics returned by the counting pass, `empty_percentage` is
`0` when `total_lines = 0`, otherwise `100 * empty_lines / total_lines`, and
it always lies in `[0, 100]`. -/
theorem c4_empty_percentage :
    ∀ (rs : List (Except IoErr String)) (s : LineStats),
      count_lines rs = .ok s →
      (s.total_lines = 0 → s.empty_percentage = 0) ∧
      (s.total_lines ≠ 0 →
        s.empty_percentage = 100 * (s.empty_lines : ℚ) / (s.total_lines : ℚ)) ∧
      0 ≤ s.empty_percentage ∧ s.empty_percentage ≤ 100 := by
  intro rs s h
  have hle : s.empty_lines ≤ s.total_lines := count_lines_ok_empty_le rs s h
  refine ⟨fun h0 => by simp [LineStats.empty_percentage, h0], fun h0 => ?_, ?_, ?_⟩
  · simp only [LineStats.empty_percentage, if_neg h0]
    ring
  · unfold LineStats.empty_percentage
    split
    · exact le_refl 0
    · positivity
  · unfold LineStats.empty_percentage
    split
    · norm_num
    · rename_i h0
      have ht : (0 : ℚ) < (s.total_lines : ℚ) := by
        exact_mod_cast Nat.pos_of_ne_zero h0
      have he : (s.empty_lines : ℚ) ≤ (s.total_lines : ℚ) := by exact_mod_cast hle
      have hdiv : (s.empty_lines : ℚ) / (s.total_lines : ℚ) ≤ 1 := by
        rw [div_le_one ht]; exact he
      linarith

/-- Witness for C4 at the statistics of `"a\nb\n\nd"`. -/
theorem c4_empty_percentage_witness :
    (LineStats.new 4 3 1).empty_percentage =
      100 * ((LineStats.new 4 3 1).empty_lines : ℚ) /
        ((LineStats.new 4 3 1).total_lines : ℚ) ∧
    0 ≤ (LineStats.new 4 3 1).empty_percentage ∧
    (LineStats.new 4 3 1).empty_percentage ≤ 100 :=
  have h := c4_empty_percentage ((rustLines "a\nb\n\nd").map Except.ok)
    (LineStats.new 4 3 1) (by decide)
  ⟨h.2.1 (by decide), h.2.2⟩

/-- C5: the size check of `validate_file_size` fails, with `FileTooLarge`
carrying the path and the exact byte size, precisely when the size strictly
exceeds `MAX_FILE_SIZE`; a size of exactly `104857600` bytes passes, and the
constant equals `104857600`. -/
theorem c5_size_check :
    ∀ (p : String) (size : Nat),
      (validate_file_size (.ok size) p =
          .error (.lineCounter (.fileTooLarge p size)) ↔ MAX_FILE_SIZE < size) ∧
      (size ≤ MAX_FILE_SIZE → validate_file_size (.ok size) p = .ok size) ∧
      MAX_FILE_SIZE = 104857600 ∧
      validate_file_size (.ok 104857600) p = .ok 104857600 := by
  intro p size
  refine ⟨?_, fun h => ?_, by decide, rfl⟩
  · unfold validate_file_size
    by_cases hs : MAX_FILE_SIZE < size <;> simp [hs]
  · unfold validate_file_size
    simp [Nat.not_lt.mpr h]

/-- Witness for C5 one byte above and at the boundary. -/
theorem c5_size_check_witness :
    validate_file_size (.ok 104857601) "big.txt" =
      .error (.lineCounter (.fileTooLarge "big.txt" 104857601)) ∧
    validate_file_size (.ok 104857600) "big.txt" = .ok 104857600 :=
  ⟨(c5_size_check "big.txt" 104857601).1.mpr (by decide),
   (c5_size_check "big.txt" 104857600).2.1 (by decide)⟩

/-- C6: with a file-path argument present, the run's filesystem events form a
prefix of existence check, directory check, metadata read, file open — in
that order; each failing check ends the trace there, and the file-open event
occurs only when all three checks succeeded. -/
theorem c6_validation_order :
    ∀ (args : List String) (fs : FS), 2 ≤ args.length →
      (∃ rest, (runMain args fs).trace ++ rest =
          [Event.checkExists, Event.checkIsDir, Event.readMetadata, Event.openFile]) ∧
      (Event.openFile ∈ (runMain args fs).trace →
        fs.pathExists = true ∧ fs.isDir = false ∧
        ∃ size, fs.metadata = .ok size ∧ size ≤ MAX_FILE_SIZE) ∧
      (fs.pathExists = false → (runMain args fs).trace = [Event.checkExists]) ∧
      (fs.pathExists = true → fs.isDir = true →
        (runMain args fs).trace = [Event.checkExists, Event.checkIsDir]) ∧
      (fs.pathExists = true → fs.isDir = false →
        (∀ size, fs.metadata = .ok size → MAX_FILE_SIZE < size) →
        (runMain args fs).trace =
          [Event.checkExists, Event.checkIsDir, Event.readMetadata]) := by
  intro args fs h
  cases args with
  | nil => simp at h
  | cons a rest =>
      cases rest with
      | nil => simp at h
      | cons b t =>
          have htr := runMain_trace a b t fs
          rcases fs with ⟨pe, isdir, md, opr, lns⟩
          cases pe with
          | false =>
              simp at htr
              rw [htr]
              refine ⟨⟨[Event.checkIsDir, Event.readMetadata, Event.openFile], rfl⟩,
                ?_, fun _ => rfl, ?_, ?_⟩
              · intro hmem; simp at hmem
              · intro hpe; simp at hpe
              · intro hpe _; simp at hpe
          | true =>
              cases isdir with
              | true =>
                  simp at htr
                  rw [htr]
                  refine ⟨⟨[Event.readMetadata, Event.openFile], rfl⟩,
                    ?_, ?_, fun _ _ => rfl, ?_⟩
                  · intro hmem; simp at hmem
                  · intro hpe; simp at hpe
                  · intro _ hdir _; simp at hdir
              | false =>
                  rcases md with e | size
                  · simp at htr
                    rw [htr]
                    refine ⟨⟨[Event.openFile], rfl⟩, ?_, ?_, ?_, fun _ _ _ => rfl⟩
                    · intro hmem; simp at hmem
                    · intro hpe; simp at hpe
                    · intro _ hdir; simp at hdir
                  · by_cases hs : MAX_FILE_SIZE < size
                    · simp [hs] at htr
                      rw [htr]
                      refine ⟨⟨[Event.openFile], rfl⟩, ?_, ?_, ?_, fun _ _ _ => rfl⟩
                      · intro hmem; simp at hmem
                      · intro hpe; simp at hpe
                      · intro _ hdir; simp at hdir
                    · simp [hs] at htr
                      rw [htr]
                      refine ⟨⟨[], rfl⟩, ?_, ?_, ?_, ?_⟩
                      · intro _
                        exact ⟨rfl, rfl, size, rfl, Nat.not_lt.mp hs⟩
                      · intro hpe; simp at hpe
                      · intro _ hdir; simp at hdir
                      · intro _ _ hall
                        exact absurd (hall size rfl) hs

/-- Witness for C6: with an existing regular small file everything runs,
with a directory the trace stops after the directory check. -/
theorem c6_validation_order_witness :
    (∃ rest,
        (runMain ["prog", "f.txt"]
            ⟨true, false, .ok 3, .ok (), [.ok "x"]⟩).trace ++ rest =
          [Event.checkExists, Event.checkIsDir, Event.readMetadata, Event.openFile]) ∧
    (runMain ["prog", "d"] ⟨true, true, .ok 3, .ok (), []⟩).trace =
      [Event.checkExists, Event.checkIsDir] :=
  ⟨(c6_validation_order ["prog", "f.txt"]
      ⟨true, false, .ok 3, .ok (), [.ok "x"]⟩ (by decide)).1,
   (c6_validation_order ["prog", "d"]
      ⟨true, true, .ok 3, .ok (), []⟩ (by decide)).2.2.2.1 rfl rfl⟩

/-- C7: when the read of some line fails, `count_lines` returns the wrapped
underlying cause, labelled with the 1-based index of the failing read, and
no statistics: whatever was counted before the failure is discarded. -/
theorem c7_read_error :
    ∀ (pre : List String) (e : IoErr) (post : List (Except IoErr String)),
      count_lines (pre.map Except.ok ++ .error e :: post) =
        .error (.readLineContext (pre.length + 1) e) := by
  intro pre e post
  unfold count_lines
  rw [countLinesAux_append_ok]
  simp [countLinesAux]

/-- C8: when the argument list is just the program name — no file path —
the run prints the usage help (error notice, literal usage line, example
line) to standard error and ends with `MissingArgument` and a nonzero exit
code. -/
theorem c8_missing_argument :
    ∀ (prog : String) (fs : FS),
      (runMain [prog] fs).stderrLines = print_usage_help prog ∧
      ("📖 用法: " ++ prog ++ " <文件路径>") ∈ (runMain [prog] fs).stderrLines ∧
      ("💡 示例: " ++ prog ++ " example.txt") ∈ (runMain [prog] fs).stderrLines ∧
      (runMain [prog] fs).outcome = .err (.lineCounter .missingArgument) ∧
      exitCode (runMain [prog] fs) ≠ 0 := by
  intro prog fs
  refine ⟨rfl, ?_, ?_, rfl, by simp [exitCode, runMain]⟩
  · simp [runMain, print_usage_help]
  · simp [runMain, print_usage_help]

/-- C9: the counting routine is deterministic — two successful runs over the
same sequence of line reads yield the same statistics. -/
theorem c9_deterministic :
    ∀ (rs : List (Except IoErr String)) (s₁ s₂ : LineStats),
      count_lines rs = .ok s₁ → count_lines rs = .ok s₂ → s₁ = s₂ := by
  intro rs s₁ s₂ h₁ h₂
  rw [h₁] at h₂
  injection h₂

/-- Witness for C9 at a concrete one-line stream. -/
theorem c9_deterministic_witness :
    LineStats.new 1 1 0 = LineStats.new 1 1 0 :=
  c9_deterministic [Except.ok "x"] (LineStats.new 1 1 0) (LineStats.new 1 1 0)
    (by decide) (by decide)

/-- C10: `empty_percentage` is total on every `LineStats`: `new` stores its
three arguments unvalidated, the `total_lines = 0` case is guarded to `0`,
and for a nonzero total the division is by a nonzero denominator — also on
values violating `total = non_empty + empty`. -/
theorem c10_percentage_total :
    ∀ (t n e : Nat),
      (LineStats.new t n e).total_lines = t ∧
      (LineStats.new t n e).non_empty_lines = n ∧
      (LineStats.new t n e).empty_lines = e ∧
      (t = 0 → (LineStats.new t n e).empty_percentage = 0) ∧
      (t ≠ 0 → (LineStats.new t n e).empty_percentage * (t : ℚ) = 100 * (e : ℚ)) := by
  intro t n e
  refine ⟨rfl, rfl, rfl, fun h => ?_, fun h => ?_⟩
  · simp [LineStats.empty_percentage, LineStats.new, h]
  · have ht : ((t : ℚ)) ≠ 0 := Nat.cast_ne_zero.mpr h
    simp only [LineStats.empty_percentage, LineStats.new, if_neg h]
    field_simp
    ring

/-- Witness for C10 at a value violating the counter invariant
(`total = 2`, `non_empty = 0`, `empty = 5`). -/
theorem c10_percentage_total_witness :
    (LineStats.new 2 0 5).empty_percentage * ((2 : Nat) : ℚ) = 100 * ((5 : Nat) : ℚ) :=
  (c10_percentage_total 2 0 5).2.2.2.2 (by decide)
